import Mathlib

/-!
Verification of the IRIS fs-decrypt engine and trusted-artifact verifier.

This file gives a shallow embedding of the Rust sources under
`src/src-tauri/src/fsdecrypt/` (crypto.rs, bootid.rs, keys.rs, mod.rs) and
`src/src-tauri/crates/configarc-core/src/trusted.rs`, and proves the frozen
claims about them.

Modelling conventions:
* Bytes are `Nat` values; the Rust `as u8` cast is `% 256`.
* Byte buffers are `List Nat`.
* AES-128 single-block encryption/decryption comes from the external `aes`
  crate, so it is a parameter (`aesDec : List Nat → List Nat → List Nat`,
  key then block); CBC chaining, which is what crypto.rs implements on top of
  it, is modelled explicitly.
* Fallible Rust code (`Result`) becomes `Except String` / `Option`; a Rust
  panic is a distinct `Outcome.panicked` value.
* The filesystem, the system clock, UTF-8 validation and timestamp
  formatting are explicit parameters of the functions that use them.
-/

namespace IRIS

/-- Outcome of running a fallible Rust function: `Ok`, `Err`, or a panic
that unwinds out of the function. -/
inductive Outcome (α : Type) where
  | ok (val : α)
  | err (msg : String)
  | panicked (msg : String)
deriving DecidableEq, Repr

/-- Byte-wise XOR of two buffers (the `aes`/`cbc` crates' block XOR);
truncates to the shorter input like `zip` does. -/
def xorBytes (a b : List Nat) : List Nat :=
  List.zipWith Nat.xor a b

/-- `NTFS_HEADER` from crypto.rs: `eb52904e544653202020200010010000`. -/
def NTFS_HEADER : List Nat :=
  [0xeb, 0x52, 0x90, 0x4e, 0x54, 0x46, 0x53, 0x20,
   0x20, 0x20, 0x20, 0x00, 0x10, 0x01, 0x00, 0x00]

/-- `EXFAT_HEADER` from crypto.rs: `eb769045584641542020200000000000`. -/
def EXFAT_HEADER : List Nat :=
  [0xeb, 0x76, 0x90, 0x45, 0x58, 0x46, 0x41, 0x54,
   0x20, 0x20, 0x20, 0x00, 0x00, 0x00, 0x00, 0x00]

/-- `GameKeys` from crypto.rs. In Rust `key` and `iv` are `[u8; 16]`. -/
structure GameKeys where
  key : List Nat
  iv : Option (List Nat)
deriving DecidableEq

/-- `calculate_page_iv` from crypto.rs:
each written byte is `file_iv[i] ^ ((file_offset >> (8 * (i % 8))) as u8)`.
The source zips `file_iv` with the output buffer, so exactly
`file_iv.length` bytes are written; we return that written prefix
(every caller passes a 16-byte `file_iv` and a 16-byte output buffer). -/
def calculate_page_iv (file_offset : Nat) (file_iv : List Nat) : List Nat :=
  (List.range file_iv.length).map
    (fun i => file_iv.getD i 0 ^^^ (file_offset >>> (8 * (i % 8))) % 256)

/-- One CBC decryption step per 16-byte block: plaintext block =
`dec(cipher block) XOR previous cipher block` (or the IV for the first
block).  `fuel` is the number of blocks; callers pass `data.length / 16`. -/
def cbc_decrypt_blocks (dec : List Nat → List Nat) :
    Nat → List Nat → List Nat → List Nat
  | 0, _, _ => []
  | fuel + 1, iv, data =>
      xorBytes (dec (data.take 16)) iv
        ++ cbc_decrypt_blocks dec fuel (data.take 16) (data.drop 16)

/-- CBC-mode decryption with `NoPadding` (`decrypt_padded_mut::<NoPadding>`):
fails unless the buffer length is a multiple of the 16-byte block size. -/
def cbc_decrypt (dec : List Nat → List Nat) (iv data : List Nat) :
    Option (List Nat) :=
  if data.length % 16 = 0 then
    some (cbc_decrypt_blocks dec (data.length / 16) iv data)
  else
    none

/-- Panic message for the out-of-bounds slice `&first_page[..16]`. -/
def slicePanicMsg : String :=
  "range end index 16 out of range"

/-- `calculate_file_iv` from crypto.rs.  `header.copy_from_slice(&first_page[..16])`
panics when `first_page` holds fewer than 16 bytes; otherwise the first 16
ciphertext bytes are CBC-decrypted with IV `calculate_page_iv(0, expected_header)`
and the plaintext block is returned as the file IV.  `aesDec key` is the
external AES-128 block decryption under `key`. -/
def calculate_file_iv (aesDec : List Nat → List Nat → List Nat) (key : List Nat)
    (expected_header first_page : List Nat) : Outcome (List Nat) :=
  if first_page.length < 16 then
    .panicked slicePanicMsg
  else
    match cbc_decrypt (aesDec key) (calculate_page_iv 0 expected_header)
        (first_page.take 16) with
    | some header => .ok header
    | none => .err "Unpad error"

/-! ### Basic lemmas about the crypto primitives -/

theorem length_calculate_page_iv (o : Nat) (iv : List Nat) :
    (calculate_page_iv o iv).length = iv.length := by
  simp [calculate_page_iv]

theorem getD_calculate_page_iv (o : Nat) (iv : List Nat) (i : Nat)
    (h : i < iv.length) :
    (calculate_page_iv o iv).getD i 0
      = iv.getD i 0 ^^^ (o >>> (8 * (i % 8))) % 256 := by
  simp [calculate_page_iv, List.getD_eq_getElem?_getD, List.getElem?_map,
    List.getElem?_range, h]

theorem calculate_page_iv_zero (iv : List Nat) :
    calculate_page_iv 0 iv = iv := by
  apply List.ext_getElem
  · simp [calculate_page_iv]
  · intro i h1 h2
    simp [calculate_page_iv, List.getElem?_eq_getElem, h2]

theorem xorBytes_length (a b : List Nat) :
    (xorBytes a b).length = min a.length b.length := by
  simp [xorBytes]

theorem xorBytes_cancel (a b : List Nat) (h : a.length = b.length) :
    xorBytes (xorBytes a b) a = b := by
  induction a generalizing b with
  | nil =>
      cases b with
      | nil => rfl
      | cons y ys => simp at h
  | cons x xs ih =>
      cases b with
      | nil => simp at h
      | cons y ys =>
          simp only [List.length_cons, Nat.add_right_cancel_iff] at h
          simp only [xorBytes, List.zipWith_cons_cons]
          have hhead : x ^^^ y ^^^ x = y := by
            rw [Nat.xor_comm x y]
            exact Nat.xor_cancel_right x y
          have htail := ih ys h
          simp only [xorBytes] at htail
          exact congrArg₂ List.cons hhead htail

theorem and_255_eq_mod (x : Nat) : x &&& 255 = x % 256 := by
  have h := Nat.and_pow_two_sub_one_eq_mod x 8
  norm_num at h
  omega

/-!
### C1 and C2: the crypto-primitive claims
-/

/-- C1: for every 16-byte key, expected header `H` and file IV `v`, if the
first ciphertext block of page 0 is `AES-Enc_K(H XOR v)` (i.e. it was
produced by CBC-encrypting a plaintext page beginning with `H` with IV
`calculate_page_iv 0 v = v`), then `calculate_file_iv` succeeds and returns
`v`.  AES is any key-indexed encryption/decryption pair with
`aesDec key ∘ aesEnc key = id` that maps 16-byte blocks to 16-byte blocks. -/
theorem calculate_file_iv_recovers_file_iv
    (aesEnc aesDec : List Nat → List Nat → List Nat) (key : List Nat)
    (hinv : ∀ blk, aesDec key (aesEnc key blk) = blk)
    (hencLen : ∀ blk, blk.length = 16 → (aesEnc key blk).length = 16)
    (H v rest : List Nat) (hH : H.length = 16) (hv : v.length = 16) :
    calculate_file_iv aesDec key H (aesEnc key (xorBytes H v) ++ rest)
      = .ok v := by
  have hx : (xorBytes H v).length = 16 := by
    simp [xorBytes_length, hH, hv]
  have hc : (aesEnc key (xorBytes H v)).length = 16 := hencLen _ hx
  have hlen : 16 ≤ (aesEnc key (xorBytes H v) ++ rest).length := by
    simp [hc]
  have htake : (aesEnc key (xorBytes H v) ++ rest).take 16
      = aesEnc key (xorBytes H v) := by
    rw [List.take_append_of_le_length (by omega),
      List.take_of_length_le (by omega)]
  rw [calculate_file_iv, if_neg (by omega), htake, calculate_page_iv_zero,
    cbc_decrypt, if_pos (by rw [hc])]
  have hone : (aesEnc key (xorBytes H v)).length / 16 = 1 := by
    rw [hc]
  rw [hone]
  have htake2 : (aesEnc key (xorBytes H v)).take 16 = aesEnc key (xorBytes H v) :=
    List.take_of_length_le (by omega)
  simp only [cbc_decrypt_blocks, htake2, hinv, List.append_nil]
  rw [xorBytes_cancel H v (by omega)]

/-- Witness for C1 at a concrete input: identity AES, `H` the NTFS header,
`v` an arbitrary 16-byte IV. -/
theorem calculate_file_iv_recovers_file_iv_witness :
    calculate_file_iv (fun _ b => b) (List.replicate 16 0) NTFS_HEADER
        (xorBytes NTFS_HEADER (List.range 16) ++ List.replicate 4080 7)
      = .ok (List.range 16) :=
  calculate_file_iv_recovers_file_iv (fun _ b => b) (fun _ b => b)
    (List.replicate 16 0) (fun _ => rfl) (fun _ h => h)
    NTFS_HEADER (List.range 16) (List.replicate 4080 7) (by decide) (by decide)

/-- C2: for every 16-byte `file_iv`, u64 offset `o` and index `i < 16`,
`calculate_page_iv o file_iv [i] XOR ((o >>> (8*(i%8))) &&& 0xFF) = file_iv[i]`;
and the tweak XORed onto bytes 8..16 repeats the tweak on bytes 0..8. -/
theorem calculate_page_iv_tweak_cancels (o : Nat) (file_iv : List Nat)
    (ho : o < 2 ^ 64) (hlen : file_iv.length = 16) :
    (∀ i, i < 16 →
      (calculate_page_iv o file_iv).getD i 0 ^^^ ((o >>> (8 * (i % 8))) &&& 0xFF)
        = file_iv.getD i 0)
    ∧ (∀ i, i < 8 →
      (calculate_page_iv o file_iv).getD (i + 8) 0 ^^^ file_iv.getD (i + 8) 0
        = (calculate_page_iv o file_iv).getD i 0 ^^^ file_iv.getD i 0) := by
  constructor
  · intro i hi
    rw [getD_calculate_page_iv o file_iv i (by omega)]
    have h255 : (0xFF : Nat) = 255 := by norm_num
    rw [h255, and_255_eq_mod, Nat.xor_cancel_right]
  · intro i hi
    have h8 : (i + 8) % 8 = i % 8 := Nat.add_mod_right i 8
    rw [getD_calculate_page_iv o file_iv (i + 8) (by omega),
      getD_calculate_page_iv o file_iv i (by omega), h8]
    have tweakCancel : ∀ a t : Nat, a ^^^ t ^^^ a = t := by
      intro a t
      rw [Nat.xor_comm a t, Nat.xor_cancel_right]
    rw [tweakCancel, tweakCancel]

/-- Witness for C2 at a concrete offset and IV. -/
theorem calculate_page_iv_tweak_cancels_witness :
    (∀ i, i < 16 →
      (calculate_page_iv 81985529216486895 (List.range 16)).getD i 0
          ^^^ ((81985529216486895 >>> (8 * (i % 8))) &&& 0xFF)
        = (List.range 16).getD i 0)
    ∧ (∀ i, i < 8 →
      (calculate_page_iv 81985529216486895 (List.range 16)).getD (i + 8) 0
          ^^^ (List.range 16).getD (i + 8) 0
        = (calculate_page_iv 81985529216486895 (List.range 16)).getD i 0
          ^^^ (List.range 16).getD i 0) :=
  calculate_page_iv_tweak_cancels 81985529216486895 (List.range 16)
    (by norm_num) (by decide)

/-!
### bootid.rs, keys.rs and the container decryptor of mod.rs
-/

/-- `ContainerType` constants from bootid.rs. -/
def ContainerType.OS : Nat := 0x00

/-- `ContainerType::APP` from bootid.rs. -/
def ContainerType.APP : Nat := 0x01

/-- `ContainerType::OPTION` from bootid.rs. -/
def ContainerType.OPTION : Nat := 0x02

/-- The decoded `BootId` header (bootid.rs).  The fields that
`decrypt_container` branches on are modelled; the version/timestamp fields
feed only the output file name, which no claim depends on.  `game_id`,
`os_id` and the OPTION-kind `target_version.option` bytes stay raw byte
lists (they are passed to `normalize_id`). -/
structure BootId where
  container_type : Nat
  sequence_number : Nat
  use_custom_iv : Bool
  game_id : List Nat
  os_id : List Nat
  target_option : List Nat
  block_count : Nat
  block_size : Nat
  header_block_count : Nat
deriving DecidableEq

/-- `size_of::<BootId>()`: 96 bytes for the repr(C) layout of bootid.rs. -/
def bootIdSize : Nat := 96

/-- u64 `saturating_mul`, clamping at `2 ^ 64 - 1` (u64 `saturating_sub`
on the `Nat` model is plain truncated subtraction). -/
def u64SatMul (a b : Nat) : Nat := min (a * b) (2 ^ 64 - 1)

/-- `output_size_from_bootid` from mod.rs:
`block_count.saturating_sub(header_block_count).saturating_mul(block_size)`. -/
def output_size_from_bootid (b : BootId) : Nat :=
  u64SatMul (b.block_count - b.header_block_count) b.block_size

/-- `data_offset = bootid.header_block_count * bootid.block_size`; plain
u64 multiplication wraps modulo `2 ^ 64` in release builds. -/
def dataOffsetOf (b : BootId) : Nat :=
  (b.header_block_count * b.block_size) % 2 ^ 64

/-- `FsDecryptKeys` from keys.rs; the `games` HashMap is a lookup function
whose keys were normalized (trimmed, upper-cased) at parse time. -/
structure FsDecryptKeys where
  bootid_key : List Nat
  bootid_iv : List Nat
  option_key : List Nat
  option_iv : List Nat
  games : String → Option GameKeys

/-- `FsDecryptKeys::game_keys_for`: look up the trimmed, upper-cased id. -/
def game_keys_for (k : FsDecryptKeys) (game_id : String) : Option GameKeys :=
  k.games game_id.trim.toUpper

/-- In Rust every key and IV is a `[u8; 16]`; the list model carries that
as a well-formedness predicate. -/
def GameKeys.WF (g : GameKeys) : Prop :=
  g.key.length = 16 ∧ ∀ iv ∈ g.iv, iv.length = 16

/-- Well-formedness of loaded key material (`decode_hex_16` guarantees
every field decodes to exactly 16 bytes). -/
def FsDecryptKeys.WF (k : FsDecryptKeys) : Prop :=
  k.bootid_key.length = 16 ∧ k.bootid_iv.length = 16 ∧
    k.option_key.length = 16 ∧ k.option_iv.length = 16 ∧
    ∀ id g, k.games id = some g → g.WF

/-- External collaborators of `decrypt_container`: the AES-128 block cipher
(`aes` crate, key then block), `normalize_id`'s UTF-8 validation
(mod.rs `normalize_id` over raw id bytes), and the NTFS / exFAT payload
extractors (`ntfs` / `exfat_fs` crates), which either produce the extracted
output or fail with a message. -/
structure DecryptEnv where
  aesDec : List Nat → List Nat → List Nat
  normId : List Nat → Except String String
  extract : BootId → List Nat → Except String (List Nat)

/-- One input file: its raw bytes, plus the `BootId` that
`read_bootid_from_reader` obtains by CBC-decrypting the first 96 bytes with
the bootid key/IV and reinterpreting them as the packed struct; that
decryption and unaligned reinterpretation are summarized by this field. -/
structure ContainerFile where
  bootid : Except String BootId
  bytes : List Nat

/-- `PAGE_SIZE` from mod.rs. -/
def PAGE_SIZE : Nat := 4096

/-- The page-decryption loop of `decrypt_container` (mod.rs lines 352-375):
`fuel` counts remaining pages and `pos` is the reader position.  Each round
reads up to 4096 bytes at `pos` (`take(PAGE_SIZE).read_to_end`), derives
the page IV from the offset relative to `data_offset`, CBC-decrypts and
appends.  A padding error aborts with the bytes written so far. -/
def pageLoop (dec : List Nat → List Nat) (iv bytes : List Nat)
    (dataOffset : Nat) : Nat → Nat → List Nat → Except (List Nat) (List Nat)
  | 0, _pos, acc => .ok acc
  | fuel + 1, pos, acc =>
      match cbc_decrypt dec (calculate_page_iv (pos - dataOffset) iv)
          ((bytes.drop pos).take PAGE_SIZE) with
      | none => .error acc
      | some plain =>
          pageLoop dec iv bytes dataOffset fuel
            (pos + ((bytes.drop pos).take PAGE_SIZE).length) (acc ++ plain)

/-- The decrypted pages themselves: page `j` is the ciphertext read at
`pos + 4096 * j`, CBC-decrypted with the IV derived from its offset
relative to `data_offset`.  This is what the loop writes when every page
is read in full. -/
def pagesSpec (dec : List Nat → List Nat) (iv bytes : List Nat)
    (dataOffset : Nat) : Nat → Nat → List Nat
  | 0, _pos => []
  | fuel + 1, pos =>
      (cbc_decrypt dec (calculate_page_iv (pos - dataOffset) iv)
          ((bytes.drop pos).take PAGE_SIZE)).getD []
        ++ pagesSpec dec iv bytes dataOffset fuel (pos + PAGE_SIZE)

/-- Result of one `decrypt_container` call: run outcome, the content of the
output file if one was created (the file is pre-allocated to `output_size`
by `set_len`, so tail bytes not overwritten by the writer read as zero),
the reported container type and extractor warnings. -/
structure ContResult where
  outcome : Outcome Unit
  output : Option (List Nat)
  container_type : Option String
  warnings : List String
deriving DecidableEq

/-- An error result of `decrypt_container` raised before the output file is
created: `result.output` stays unset. -/
def contErr (ct : Option String) (msg : String) : ContResult :=
  { outcome := .err msg, output := none, container_type := ct, warnings := [] }

/-- The tail of `decrypt_container` once key and file IV are fixed
(mod.rs lines 336-417): create the output file, `set_len(output_size)`,
run the page loop, flush, then (unless `no_extract`) hand the decrypted
image to the kind-specific extractor; on extractor success the intermediate
file is removed and the extracted payload becomes the output, on extractor
failure the intermediate file is kept with a warning. -/
def writePhase (dec : List Nat → List Nat) (iv : List Nat) (b : BootId)
    (bytes : List Nat) (ctStr : String) (no_extract : Bool)
    (extract : List Nat → Except String (List Nat)) : ContResult :=
  match pageLoop dec iv bytes (dataOffsetOf b)
      (output_size_from_bootid b / PAGE_SIZE) (dataOffsetOf b) [] with
  | .error writtenSoFar =>
      { outcome := .err "Unpad error",
        output := some (writtenSoFar
          ++ List.replicate (output_size_from_bootid b - writtenSoFar.length) 0),
        container_type := some ctStr, warnings := [] }
  | .ok written =>
      let content := written
        ++ List.replicate (output_size_from_bootid b - written.length) 0
      if no_extract then
        { outcome := .ok (), output := some content,
          container_type := some ctStr, warnings := [] }
      else
        match extract content with
        | .ok extracted =>
            { outcome := .ok (), output := some extracted,
              container_type := some ctStr, warnings := [] }
        | .error e =>
            { outcome := .ok (), output := some content,
              container_type := some ctStr,
              warnings := ["Failed to extract: " ++ e] }

/-- `decrypt_container` from mod.rs: read and decode the BootID, reject
unknown container types, normalize the ids, select key material by kind,
determine the file IV (configured, or recovered from the first ciphertext
page with the kind-appropriate expected header), build the output filename
(for OPTION this normalizes the option bytes), then decrypt all pages. -/
def decrypt_container (env : DecryptEnv) (keys : FsDecryptKeys)
    (no_extract : Bool) (file : ContainerFile) : ContResult :=
  if file.bytes.length < bootIdSize then
    contErr none "failed to fill whole buffer"
  else
    match file.bootid with
    | .error e => contErr none e
    | .ok b =>
      if b.container_type ≠ ContainerType.OS ∧
          b.container_type ≠ ContainerType.APP ∧
          b.container_type ≠ ContainerType.OPTION then
        contErr none ("Unknown container type " ++ toString b.container_type)
      else
        match env.normId b.os_id with
        | .error e => contErr none e
        | .ok os_id =>
          match env.normId b.game_id with
          | .error e => contErr none e
          | .ok game_id =>
            match (if b.container_type = ContainerType.OS then
                     game_keys_for keys os_id
                   else if b.container_type = ContainerType.APP then
                     game_keys_for keys game_id
                   else
                     some { key := keys.option_key, iv := some keys.option_iv }) with
            | none => contErr none "Key not found"
            | some gk =>
              let ctStr := if b.container_type = ContainerType.OS then "OS"
                else if b.container_type = ContainerType.APP then "APP"
                else "OPTION"
              match (match (if b.use_custom_iv then none else gk.iv) with
                     | some iv => Outcome.ok iv
                     | none =>
                         calculate_file_iv env.aesDec gk.key
                           (if b.container_type = ContainerType.OPTION then
                              EXFAT_HEADER
                            else NTFS_HEADER)
                           ((file.bytes.drop (dataOffsetOf b)).take PAGE_SIZE)) with
              | .panicked m =>
                  { outcome := .panicked m, output := none,
                    container_type := some ctStr, warnings := [] }
              | .err m => contErr (some ctStr) m
              | .ok iv =>
                  match (if b.container_type = ContainerType.OPTION then
                           (env.normId b.target_option).map (fun _ => ())
                         else Except.ok ()) with
                  | .error e => contErr (some ctStr) e
                  | .ok _ =>
                      writePhase (env.aesDec gk.key) iv b file.bytes ctStr
                        no_extract (env.extract b)

/-- Per-file entry of the batch summary (`DecryptResult` in mod.rs; the
`input` path string and the `extracted` flag are bookkeeping the claims do
not mention). -/
structure DecryptResult where
  output : Option (List Nat)
  container_type : Option String
  warnings : List String
  failed : Bool
  error : Option String
deriving DecidableEq

/-- How `decrypt_game_files` folds one `decrypt_container` outcome into a
result entry: an `Err` and a caught panic both mark the entry failed; the
panic message is prefixed with "Decrypt panic: " (`catch_unwind` plus
`panic_message`, mod.rs lines 521-534). -/
def toDecryptResult (r : ContResult) : DecryptResult :=
  match r.outcome with
  | .ok _ =>
      { output := r.output, container_type := r.container_type,
        warnings := r.warnings, failed := false, error := none }
  | .err m =>
      { output := r.output, container_type := r.container_type,
        warnings := r.warnings, failed := true, error := some m }
  | .panicked m =>
      { output := r.output, container_type := r.container_type,
        warnings := r.warnings, failed := true,
        error := some ("Decrypt panic: " ++ m) }

/-- `decrypt_game_files` (mod.rs lines 486-558): inputs are processed
strictly in order, each yields exactly one summary entry, and a per-file
error or panic is recorded in that entry while the loop continues.  Key
loading and progress reporting do not affect the per-file results and are
omitted; `keys` is the already-loaded key material. -/
def decrypt_game_files (env : DecryptEnv) (keys : FsDecryptKeys)
    (no_extract : Bool) (files : List ContainerFile) : List DecryptResult :=
  files.map (fun f => toDecryptResult (decrypt_container env keys no_extract f))

/-! ### Length and framing lemmas for the page loop -/

theorem cbc_decrypt_blocks_length_le (dec : List Nat → List Nat) :
    ∀ (fuel : Nat) (iv data : List Nat), iv.length ≤ 16 →
      (cbc_decrypt_blocks dec fuel iv data).length ≤ 16 * fuel := by
  intro fuel
  induction fuel with
  | zero =>
      intro iv data _h
      simp [cbc_decrypt_blocks]
  | succ n ih =>
      intro iv data h
      simp only [cbc_decrypt_blocks, List.length_append]
      have h1 : (xorBytes (dec (data.take 16)) iv).length ≤ 16 := by
        rw [xorBytes_length]
        omega
      have h2 := ih (data.take 16) (data.drop 16)
        (by rw [List.length_take]; exact min_le_left _ _)
      omega

theorem cbc_decrypt_blocks_length_eq (dec : List Nat → List Nat)
    (hdec : ∀ blk, blk.length = 16 → (dec blk).length = 16) :
    ∀ (fuel : Nat) (iv data : List Nat), iv.length = 16 →
      data.length = 16 * fuel →
      (cbc_decrypt_blocks dec fuel iv data).length = data.length := by
  intro fuel
  induction fuel with
  | zero =>
      intro iv data _h hd
      simp only [cbc_decrypt_blocks, List.length_nil]
      omega
  | succ n ih =>
      intro iv data hiv hd
      have htl : (data.take 16).length = 16 := by
        rw [List.length_take]; omega
      have hdl : (data.drop 16).length = 16 * n := by
        rw [List.length_drop]; omega
      simp only [cbc_decrypt_blocks, List.length_append]
      rw [xorBytes_length, hdec _ htl, hiv,
        ih (data.take 16) (data.drop 16) htl hdl, hdl]
      omega

theorem cbc_decrypt_length_le (dec : List Nat → List Nat)
    (iv data out : List Nat) (hiv : iv.length ≤ 16)
    (h : cbc_decrypt dec iv data = some out) : out.length ≤ data.length := by
  unfold cbc_decrypt at h
  split at h
  · rename_i hmod
    cases h
    have := cbc_decrypt_blocks_length_le dec (data.length / 16) iv data hiv
    omega
  · cases h

theorem cbc_decrypt_length_eq (dec : List Nat → List Nat)
    (hdec : ∀ blk, blk.length = 16 → (dec blk).length = 16)
    (iv data out : List Nat) (hiv : iv.length = 16)
    (h : cbc_decrypt dec iv data = some out) : out.length = data.length := by
  unfold cbc_decrypt at h
  split at h
  · rename_i hmod
    cases h
    exact cbc_decrypt_blocks_length_eq dec hdec (data.length / 16) iv data hiv
      (by omega)
  · cases h

theorem pageLoop_length_le (dec : List Nat → List Nat) (iv bytes : List Nat)
    (dataOffset : Nat) (hiv : iv.length ≤ 16) :
    ∀ (fuel pos : Nat) (acc w : List Nat),
      (pageLoop dec iv bytes dataOffset fuel pos acc = .ok w ∨
        pageLoop dec iv bytes dataOffset fuel pos acc = .error w) →
      w.length ≤ acc.length + PAGE_SIZE * fuel := by
  intro fuel
  induction fuel with
  | zero =>
      intro pos acc w h
      rcases h with h | h
      · rw [pageLoop] at h
        cases h
        simp
      · rw [pageLoop] at h
        cases h
  | succ n ih =>
      intro pos acc w h
      have hmul : PAGE_SIZE * (n + 1) = PAGE_SIZE * n + PAGE_SIZE :=
        Nat.mul_succ _ _
      rcases hc : cbc_decrypt dec (calculate_page_iv (pos - dataOffset) iv)
          ((bytes.drop pos).take PAGE_SIZE) with _ | plain
      · rcases h with h | h
        · simp only [pageLoop, hc] at h
          exact Except.noConfusion h
        · simp only [pageLoop, hc] at h
          cases h
          omega
      · have hp : plain.length ≤ PAGE_SIZE := by
          have h1 : ((bytes.drop pos).take PAGE_SIZE).length ≤ PAGE_SIZE := by
            rw [List.length_take]
            exact min_le_left _ _
          have h2 := cbc_decrypt_length_le dec _ _ plain
            (by rw [length_calculate_page_iv]; exact hiv) hc
          omega
        rcases h with h | h
        · simp only [pageLoop, hc] at h
          have := ih (pos + ((bytes.drop pos).take PAGE_SIZE).length)
            (acc ++ plain) w (Or.inl h)
          simp only [List.length_append] at this
          omega
        · simp only [pageLoop, hc] at h
          have := ih (pos + ((bytes.drop pos).take PAGE_SIZE).length)
            (acc ++ plain) w (Or.inr h)
          simp only [List.length_append] at this
          omega

theorem pageLoop_full (dec : List Nat → List Nat)
    (hdec : ∀ blk, blk.length = 16 → (dec blk).length = 16)
    (iv bytes : List Nat) (dataOffset : Nat) (hiv : iv.length = 16) :
    ∀ (fuel pos : Nat) (acc : List Nat),
      pos + PAGE_SIZE * fuel ≤ bytes.length →
      pageLoop dec iv bytes dataOffset fuel pos acc
          = .ok (acc ++ pagesSpec dec iv bytes dataOffset fuel pos)
        ∧ (pagesSpec dec iv bytes dataOffset fuel pos).length
          = PAGE_SIZE * fuel := by
  intro fuel
  induction fuel with
  | zero =>
      intro pos acc _h
      constructor
      · simp [pageLoop, pagesSpec]
      · simp [pagesSpec]
  | succ n ih =>
      intro pos acc h
      have hpage : ((bytes.drop pos).take PAGE_SIZE).length = PAGE_SIZE := by
        rw [List.length_take, List.length_drop]
        simp only [PAGE_SIZE] at h ⊢
        omega
      have hcbc : cbc_decrypt dec (calculate_page_iv (pos - dataOffset) iv)
          ((bytes.drop pos).take PAGE_SIZE)
          = some (cbc_decrypt_blocks dec (PAGE_SIZE / 16)
              (calculate_page_iv (pos - dataOffset) iv)
              ((bytes.drop pos).take PAGE_SIZE)) := by
        rw [cbc_decrypt, if_pos (by rw [hpage]; decide), hpage]
      have hplainlen : (cbc_decrypt_blocks dec (PAGE_SIZE / 16)
          (calculate_page_iv (pos - dataOffset) iv)
          ((bytes.drop pos).take PAGE_SIZE)).length = PAGE_SIZE := by
        have heq := cbc_decrypt_blocks_length_eq dec hdec (PAGE_SIZE / 16)
          (calculate_page_iv (pos - dataOffset) iv)
          ((bytes.drop pos).take PAGE_SIZE)
          (by rw [length_calculate_page_iv]; exact hiv)
          (by rw [hpage]; decide)
        rw [heq, hpage]
      have hrec := ih (pos + PAGE_SIZE) (acc ++ cbc_decrypt_blocks dec
          (PAGE_SIZE / 16) (calculate_page_iv (pos - dataOffset) iv)
          ((bytes.drop pos).take PAGE_SIZE))
        (by simp only [PAGE_SIZE] at h ⊢; omega)
      constructor
      · rw [pageLoop]
        simp only [hcbc]
        rw [hpage, hrec.1, pagesSpec]
        simp only [hcbc, Option.getD_some, List.append_assoc]
      · rw [pagesSpec]
        simp only [hcbc, Option.getD_some, List.length_append, hplainlen,
          hrec.2, Nat.mul_succ]
        omega

theorem pageLoop_frame (dec : List Nat → List Nat) (iv : List Nat)
    (bytes bytes' : List Nat) (dataOffset : Nat)
    (hdrop : bytes.drop dataOffset = bytes'.drop dataOffset) :
    ∀ (fuel pos : Nat) (acc : List Nat), dataOffset ≤ pos →
      pageLoop dec iv bytes dataOffset fuel pos acc
        = pageLoop dec iv bytes' dataOffset fuel pos acc := by
  intro fuel
  induction fuel with
  | zero =>
      intro pos acc _h
      rfl
  | succ n ih =>
      intro pos acc hpos
      have hb : bytes.drop pos = bytes'.drop pos := by
        have h1 : bytes.drop pos = (bytes.drop dataOffset).drop (pos - dataOffset) := by
          rw [List.drop_drop]
          congr 1
          omega
        have h2 : bytes'.drop pos = (bytes'.drop dataOffset).drop (pos - dataOffset) := by
          rw [List.drop_drop]
          congr 1
          omega
        rw [h1, h2, hdrop]
      rw [pageLoop, pageLoop, hb]
      rcases hc : cbc_decrypt dec (calculate_page_iv (pos - dataOffset) iv)
          ((bytes'.drop pos).take PAGE_SIZE) with _ | plain
      · rfl
      · exact ih (pos + ((bytes'.drop pos).take PAGE_SIZE).length)
          (acc ++ plain) (by omega)

theorem writePhase_output_length (dec : List Nat → List Nat) (iv : List Nat)
    (b : BootId) (bytes : List Nat) (ctStr : String)
    (extract : List Nat → Except String (List Nat))
    (hiv : iv.length ≤ 16) (content : List Nat)
    (hout : (writePhase dec iv b bytes ctStr true extract).output = some content) :
    content.length = output_size_from_bootid b := by
  have hbound : ∀ w,
      (pageLoop dec iv bytes (dataOffsetOf b)
          (output_size_from_bootid b / PAGE_SIZE) (dataOffsetOf b) [] = .ok w ∨
        pageLoop dec iv bytes (dataOffsetOf b)
          (output_size_from_bootid b / PAGE_SIZE) (dataOffsetOf b) [] = .error w) →
      w.length ≤ output_size_from_bootid b := by
    intro w hw
    have hlen := pageLoop_length_le dec iv bytes (dataOffsetOf b) hiv
      (output_size_from_bootid b / PAGE_SIZE) (dataOffsetOf b) [] w hw
    simp only [List.length_nil, PAGE_SIZE] at hlen
    omega
  unfold writePhase at hout
  rcases hpl : pageLoop dec iv bytes (dataOffsetOf b)
      (output_size_from_bootid b / PAGE_SIZE) (dataOffsetOf b) [] with w | w
  · simp only [hpl] at hout
    have hw := hbound w (Or.inr hpl)
    cases hout
    simp only [List.length_append, List.length_replicate]
    omega
  · simp only [hpl, ite_true] at hout
    have hw := hbound w (Or.inl hpl)
    cases hout
    simp only [List.length_append, List.length_replicate]
    omega

theorem writePhase_full (dec : List Nat → List Nat)
    (hdec : ∀ blk, blk.length = 16 → (dec blk).length = 16)
    (iv : List Nat) (b : BootId) (bytes : List Nat) (ctStr : String)
    (extract : List Nat → Except String (List Nat))
    (hiv : iv.length = 16)
    (hmod : output_size_from_bootid b % PAGE_SIZE = 0)
    (hlen : dataOffsetOf b + output_size_from_bootid b ≤ bytes.length) :
    writePhase dec iv b bytes ctStr true extract
      = { outcome := .ok (),
          output := some (pagesSpec dec iv bytes (dataOffsetOf b)
            (output_size_from_bootid b / PAGE_SIZE) (dataOffsetOf b)),
          container_type := some ctStr, warnings := [] } := by
  have hfit : dataOffsetOf b
      + PAGE_SIZE * (output_size_from_bootid b / PAGE_SIZE) ≤ bytes.length := by
    simp only [PAGE_SIZE] at hmod ⊢
    omega
  have h := pageLoop_full dec hdec iv bytes (dataOffsetOf b) hiv
    (output_size_from_bootid b / PAGE_SIZE) (dataOffsetOf b) [] hfit
  have hlen2 : (pagesSpec dec iv bytes (dataOffsetOf b)
      (output_size_from_bootid b / PAGE_SIZE) (dataOffsetOf b)).length
      = output_size_from_bootid b := by
    rw [h.2]
    simp only [PAGE_SIZE] at hmod ⊢
    omega
  unfold writePhase
  simp only [h.1, List.nil_append, hlen2, Nat.sub_self, List.replicate,
    List.append_nil, ite_true]

theorem writePhase_frame (dec : List Nat → List Nat) (iv : List Nat)
    (b : BootId) (bytes bytes' : List Nat) (ctStr : String) (ne : Bool)
    (extract : List Nat → Except String (List Nat))
    (hdrop : bytes.drop (dataOffsetOf b) = bytes'.drop (dataOffsetOf b)) :
    writePhase dec iv b bytes ctStr ne extract
      = writePhase dec iv b bytes' ctStr ne extract := by
  unfold writePhase
  rw [pageLoop_frame dec iv bytes bytes' (dataOffsetOf b) hdrop
    (output_size_from_bootid b / PAGE_SIZE) (dataOffsetOf b) [] (le_refl _)]

theorem calculate_file_iv_ok_length (aesDec : List Nat → List Nat → List Nat)
    (key hdr page iv : List Nat) (hhdr : hdr.length = 16)
    (h : calculate_file_iv aesDec key hdr page = .ok iv) :
    iv.length ≤ 16
      ∧ ((∀ blk, blk.length = 16 → (aesDec key blk).length = 16) →
          iv.length = 16) := by
  unfold calculate_file_iv at h
  split at h
  · exact Outcome.noConfusion h
  · rename_i hplen
    rcases hc : cbc_decrypt (aesDec key) (calculate_page_iv 0 hdr)
        (page.take 16) with _ | out
    · simp only [hc] at h
      exact Outcome.noConfusion h
    · simp only [hc] at h
      cases h
      have hdata : (page.take 16).length = 16 := by
        rw [List.length_take]
        omega
      constructor
      · have := cbc_decrypt_length_le (aesDec key) _ _ iv
          (by rw [length_calculate_page_iv, hhdr]) hc
        omega
      · intro hdec
        have := cbc_decrypt_length_eq (aesDec key) hdec _ _ iv
          (by rw [length_calculate_page_iv]; exact hhdr) hc
        omega

theorem decrypt_container_frame (env : DecryptEnv) (keys : FsDecryptKeys)
    (ne : Bool) (file file' : ContainerFile) (b : BootId)
    (hb : file.bootid = .ok b) (hb' : file'.bootid = .ok b)
    (hlen : bootIdSize ≤ file.bytes.length)
    (hlen' : bootIdSize ≤ file'.bytes.length)
    (hdrop : file'.bytes.drop (dataOffsetOf b)
      = file.bytes.drop (dataOffsetOf b)) :
    decrypt_container env keys ne file' = decrypt_container env keys ne file := by
  have h1 : ¬ (file'.bytes.length < bootIdSize) := by omega
  have h2 : ¬ (file.bytes.length < bootIdSize) := by omega
  unfold decrypt_container
  rw [if_neg h1, if_neg h2]
  simp only [hb, hb']
  by_cases hct : (b.container_type ≠ ContainerType.OS ∧
      b.container_type ≠ ContainerType.APP ∧
      b.container_type ≠ ContainerType.OPTION)
  · rw [if_pos hct, if_pos hct]
  · rw [if_neg hct, if_neg hct]
    rcases hos : env.normId b.os_id with e | os_id
    · simp only [hos]
    · simp only [hos]
      rcases hgid : env.normId b.game_id with e | game_id
      · simp only [hgid]
      · simp only [hgid]
        rcases hgk : (if b.container_type = ContainerType.OS then
              game_keys_for keys os_id
            else if b.container_type = ContainerType.APP then
              game_keys_for keys game_id
            else
              some { key := keys.option_key, iv := some keys.option_iv })
            with _ | gk
        · simp only [hgk]
        · simp only [hgk]
          rcases hivsrc : (if b.use_custom_iv then none else gk.iv) with _ | iv0
          · simp only [hivsrc, hdrop]
            rcases hciv : calculate_file_iv env.aesDec gk.key
                (if b.container_type = ContainerType.OPTION then EXFAT_HEADER
                 else NTFS_HEADER)
                ((file.bytes.drop (dataOffsetOf b)).take PAGE_SIZE)
                with ivr | m | m
            · simp only [hciv]
              rcases hname : (if b.container_type = ContainerType.OPTION then
                    (env.normId b.target_option).map (fun _ => ())
                  else Except.ok ()) with e | u
              · simp only [hname]
              · simp only [hname]
                exact writePhase_frame _ _ b file'.bytes file.bytes _ ne _ hdrop
            · simp only [hciv]
            · simp only [hciv]
          · simp only [hivsrc]
            rcases hname : (if b.container_type = ContainerType.OPTION then
                  (env.normId b.target_option).map (fun _ => ())
                else Except.ok ()) with e | u
            · simp only [hname]
            · simp only [hname]
              exact writePhase_frame _ _ b file'.bytes file.bytes _ ne _ hdrop

theorem decrypt_container_ok_structure (env : DecryptEnv)
    (keys : FsDecryptKeys) (file : ContainerFile) (b : BootId)
    (hwf : keys.WF) (hb : file.bootid = .ok b) :
    (decrypt_container env keys true file).output = none ∨
    ∃ key iv ctStr, iv.length ≤ 16 ∧
      ((∀ blk, blk.length = 16 → (env.aesDec key blk).length = 16) →
        iv.length = 16) ∧
      decrypt_container env keys true file
        = writePhase (env.aesDec key) iv b file.bytes ctStr true
            (env.extract b) := by
  unfold decrypt_container
  by_cases h96 : file.bytes.length < bootIdSize
  · rw [if_pos h96]
    left
    trivial
  · rw [if_neg h96]
    simp only [hb]
    by_cases hct : (b.container_type ≠ ContainerType.OS ∧
        b.container_type ≠ ContainerType.APP ∧
        b.container_type ≠ ContainerType.OPTION)
    · rw [if_pos hct]
      left
      trivial
    · rw [if_neg hct]
      rcases hos : env.normId b.os_id with e | os_id
      · simp only [hos]
        left
        trivial
      · simp only [hos]
        rcases hgid : env.normId b.game_id with e | game_id
        · simp only [hgid]
          left
          trivial
        · simp only [hgid]
          rcases hgk : (if b.container_type = ContainerType.OS then
                game_keys_for keys os_id
              else if b.container_type = ContainerType.APP then
                game_keys_for keys game_id
              else
                some { key := keys.option_key, iv := some keys.option_iv })
              with _ | gk
          · simp only [hgk]
            left
            trivial
          · simp only [hgk]
            have hgkwf : gk.key.length = 16 ∧ ∀ iv0 ∈ gk.iv, iv0.length = 16 := by
              by_cases hOS : b.container_type = ContainerType.OS
              · rw [if_pos hOS] at hgk
                exact hwf.2.2.2.2 _ _ hgk
              · rw [if_neg hOS] at hgk
                by_cases hAPP : b.container_type = ContainerType.APP
                · rw [if_pos hAPP] at hgk
                  exact hwf.2.2.2.2 _ _ hgk
                · rw [if_neg hAPP] at hgk
                  cases hgk
                  refine ⟨hwf.2.2.1, ?_⟩
                  intro iv0 hmem
                  simp only [Option.mem_def, Option.some.injEq] at hmem
                  rw [← hmem]
                  exact hwf.2.2.2.1
            rcases hivsrc : (if b.use_custom_iv then none else gk.iv) with _ | iv0
            · simp only [hivsrc]
              rcases hciv : calculate_file_iv env.aesDec gk.key
                  (if b.container_type = ContainerType.OPTION then EXFAT_HEADER
                   else NTFS_HEADER)
                  ((file.bytes.drop (dataOffsetOf b)).take PAGE_SIZE)
                  with ivr | m | m
              · simp only [hciv]
                have hhdr : (if b.container_type = ContainerType.OPTION then
                    EXFAT_HEADER else NTFS_HEADER).length = 16 := by
                  by_cases hOPT : b.container_type = ContainerType.OPTION
                  · rw [if_pos hOPT]
                    decide
                  · rw [if_neg hOPT]
                    decide
                have hl := calculate_file_iv_ok_length env.aesDec gk.key _ _ ivr
                  hhdr hciv
                rcases hname : (if b.container_type = ContainerType.OPTION then
                      (env.normId b.target_option).map (fun _ => ())
                    else Except.ok ()) with e | u
                · simp only [hname]
                  left
                  trivial
                · simp only [hname]
                  right
                  exact ⟨gk.key, ivr, _, hl.1, hl.2, rfl⟩
              · simp only [hciv]
                left
                trivial
              · simp only [hciv]
                left
                trivial
            · simp only [hivsrc]
              have hiv16 : iv0.length = 16 := by
                by_cases huse : b.use_custom_iv
                · rw [if_pos huse] at hivsrc
                  exact Option.noConfusion hivsrc
                · rw [if_neg huse] at hivsrc
                  exact hgkwf.2 iv0 (Option.mem_def.mpr hivsrc)
              rcases hname : (if b.container_type = ContainerType.OPTION then
                    (env.normId b.target_option).map (fun _ => ())
                  else Except.ok ()) with e | u
              · simp only [hname]
                left
                trivial
              · simp only [hname]
                right
                exact ⟨gk.key, iv0, _, le_of_eq hiv16, fun _ => hiv16, rfl⟩

/-!
### C3, C4, C10: container decryption claims
-/

/-- Test fixture: identity AES, trivial id normalization, extraction that
returns the decrypted image unchanged. -/
def envTriv : DecryptEnv :=
  { aesDec := fun _ blk => blk,
    normId := fun _ => .ok "G",
    extract := fun _ content => .ok content }

/-- Test fixture: every game id maps to an all-zero key with a configured
all-zero IV. -/
def keysTriv : FsDecryptKeys :=
  { bootid_key := List.replicate 16 0, bootid_iv := List.replicate 16 0,
    option_key := List.replicate 16 0, option_iv := List.replicate 16 0,
    games := fun _ =>
      some { key := List.replicate 16 0, iv := some (List.replicate 16 0) } }

theorem keysTriv_WF : keysTriv.WF := by
  refine ⟨by decide, by decide, by decide, by decide, ?_⟩
  intro id g h
  cases h
  exact ⟨by decide, by intro iv h; cases h; decide⟩

/-- An APP container whose geometry gives `output_size = 1 * 17 = 17`. -/
def bootId17 : BootId :=
  { container_type := ContainerType.APP, sequence_number := 0,
    use_custom_iv := false, game_id := [], os_id := [], target_option := [],
    block_count := 1, block_size := 17, header_block_count := 0 }

/-- A 96-byte input file carrying `bootId17`. -/
def file17 : ContainerFile :=
  { bootid := .ok bootId17, bytes := List.replicate 96 0 }

/-- C3 counterexample: the container `bootId17` (`block_count = 1`,
`block_size = 17`, `header_block_count = 0`) decrypts successfully with
`no_extract`, yet its output is 17 bytes — not a non-zero multiple of
4096 — and since `17 / 4096 = 0` pages were decrypted, all 17 output bytes
are `set_len` zero-fill rather than decrypted page bytes. -/
theorem decrypt_container_output_size_not_multiple_of_4096 :
    decrypt_container envTriv keysTriv true file17
      = { outcome := .ok (), output := some (List.replicate 17 0),
          container_type := some "APP", warnings := [] }
    ∧ output_size_from_bootid bootId17 = 17
    ∧ output_size_from_bootid bootId17 / PAGE_SIZE = 0
    ∧ ¬(output_size_from_bootid bootId17 % 4096 = 0
        ∧ output_size_from_bootid bootId17 ≠ 0) := by
  refine ⟨?_, by decide, by decide, by decide⟩
  decide

/-- C3 (amended): for well-formed key material, whenever `decrypt_container`
(without extraction) creates an output file: (1) the output length is
exactly `(block_count − header_block_count) × block_size` (u64-saturating);
(2) the result depends only on the input bytes from
`data_offset = header_block_count × block_size` on — the bytes between the
encrypted BootID and the data offset are skipped, never copied; (3) if the
output size is a multiple of 4096 and the input supplies every page in
full, the whole output is exactly the concatenation of the CBC-decrypted
pages (no zero fill). -/
theorem decrypt_container_output_law
    (env : DecryptEnv) (keys : FsDecryptKeys) (file : ContainerFile)
    (b : BootId) (content : List Nat)
    (hwf : keys.WF) (hb : file.bootid = .ok b)
    (hout : (decrypt_container env keys true file).output = some content) :
    content.length = output_size_from_bootid b
    ∧ (∀ file' : ContainerFile, file'.bootid = .ok b →
        bootIdSize ≤ file.bytes.length → bootIdSize ≤ file'.bytes.length →
        file'.bytes.drop (dataOffsetOf b) = file.bytes.drop (dataOffsetOf b) →
        decrypt_container env keys true file'
          = decrypt_container env keys true file)
    ∧ ((∀ k blk, blk.length = 16 → (env.aesDec k blk).length = 16) →
        output_size_from_bootid b % PAGE_SIZE = 0 →
        dataOffsetOf b + output_size_from_bootid b ≤ file.bytes.length →
        ∃ key iv, iv.length = 16 ∧
          content = pagesSpec (env.aesDec key) iv file.bytes (dataOffsetOf b)
            (output_size_from_bootid b / PAGE_SIZE) (dataOffsetOf b)) := by
  obtain hnone | ⟨key, iv, ctStr, hle, h16, heq⟩ :=
    decrypt_container_ok_structure env keys file b hwf hb
  · rw [hnone] at hout
    exact Option.noConfusion hout
  · refine ⟨?_, ?_, ?_⟩
    · apply writePhase_output_length (env.aesDec key) iv b file.bytes ctStr
        (env.extract b) hle content
      rw [← heq]
      exact hout
    · intro file' hb' hl hl' hdrop
      exact decrypt_container_frame env keys true file file' b hb hb' hl hl' hdrop
    · intro hdec hmod hfits
      refine ⟨key, iv, h16 (hdec key), ?_⟩
      have hfull := writePhase_full (env.aesDec key) (hdec key) iv b
        file.bytes ctStr (env.extract b) (h16 (hdec key)) hmod hfits
      rw [heq, hfull] at hout
      simp only [Option.some.injEq] at hout
      exact hout.symm

/-- Witness for the amended C3 at the concrete fixture `file17`. -/
theorem decrypt_container_output_law_witness :
    (List.replicate 17 0).length = output_size_from_bootid bootId17
    ∧ (∀ file' : ContainerFile, file'.bootid = .ok bootId17 →
        bootIdSize ≤ file17.bytes.length → bootIdSize ≤ file'.bytes.length →
        file'.bytes.drop (dataOffsetOf bootId17)
          = file17.bytes.drop (dataOffsetOf bootId17) →
        decrypt_container envTriv keysTriv true file'
          = decrypt_container envTriv keysTriv true file17)
    ∧ ((∀ k blk, blk.length = 16 → (envTriv.aesDec k blk).length = 16) →
        output_size_from_bootid bootId17 % PAGE_SIZE = 0 →
        dataOffsetOf bootId17 + output_size_from_bootid bootId17
          ≤ file17.bytes.length →
        ∃ key iv, iv.length = 16 ∧
          List.replicate 17 0 = pagesSpec (envTriv.aesDec key) iv file17.bytes
            (dataOffsetOf bootId17)
            (output_size_from_bootid bootId17 / PAGE_SIZE)
            (dataOffsetOf bootId17)) :=
  decrypt_container_output_law envTriv keysTriv file17 bootId17
    (List.replicate 17 0) keysTriv_WF rfl (by decide)

/-- C4: a file whose decoded BootID has a container type outside
`{OS(0), APP(1), OPTION(2)}` fails with a per-file error before any output
file is created, and the batch still contains exactly one result per input,
with that input marked failed and carrying the error. -/
theorem unknown_container_type_per_file_error
    (env : DecryptEnv) (keys : FsDecryptKeys) (ne : Bool)
    (files : List ContainerFile) (i : Nat) (b : BootId)
    (hi : i < files.length)
    (hbytes : bootIdSize ≤ (files.get ⟨i, hi⟩).bytes.length)
    (hb : (files.get ⟨i, hi⟩).bootid = .ok b)
    (ht : b.container_type ≠ ContainerType.OS ∧
      b.container_type ≠ ContainerType.APP ∧
      b.container_type ≠ ContainerType.OPTION) :
    (decrypt_game_files env keys ne files).length = files.length
    ∧ ∀ (hr : i < (decrypt_game_files env keys ne files).length),
        (decrypt_game_files env keys ne files).get ⟨i, hr⟩
          = { output := none, container_type := none, warnings := [],
              failed := true,
              error := some ("Unknown container type "
                ++ toString b.container_type) } := by
  constructor
  · simp [decrypt_game_files]
  · intro hr
    have hmap : (decrypt_game_files env keys ne files).get ⟨i, hr⟩
        = toDecryptResult (decrypt_container env keys ne (files.get ⟨i, hi⟩)) := by
      simp [decrypt_game_files, List.get_eq_getElem]
    rw [hmap]
    unfold decrypt_container
    rw [if_neg (Nat.not_lt.mpr hbytes)]
    simp only [hb]
    rw [if_pos ht]
    rfl

/-- A BootID carrying the unknown container type 9. -/
def bootIdBad : BootId :=
  { container_type := 9, sequence_number := 0, use_custom_iv := false,
    game_id := [], os_id := [], target_option := [],
    block_count := 1, block_size := 17, header_block_count := 0 }

/-- A file whose decoded BootID carries the unknown container type 9. -/
def fileBadType : ContainerFile :=
  { bootid := .ok bootIdBad, bytes := List.replicate 96 0 }

/-- Witness for C4: a two-file batch whose first file has container type 9;
the summary has two entries and the first is failed with the error. -/
theorem unknown_container_type_per_file_error_witness :
    (decrypt_game_files envTriv keysTriv true [fileBadType, file17]).length = 2
    ∧ ∀ (hr : 0 < (decrypt_game_files envTriv keysTriv true
        [fileBadType, file17]).length),
        (decrypt_game_files envTriv keysTriv true
            [fileBadType, file17]).get ⟨0, hr⟩
          = { output := none, container_type := none, warnings := [],
              failed := true,
              error := some ("Unknown container type "
                ++ toString bootIdBad.container_type) } :=
  unknown_container_type_per_file_error envTriv keysTriv true
    [fileBadType, file17] 0 bootIdBad (by decide) (by decide) rfl
    ⟨by decide, by decide, by decide⟩

/-- Keys whose per-game entries have no configured IV, forcing file-IV
recovery for OS and APP containers. -/
def keysRecover : FsDecryptKeys :=
  { bootid_key := List.replicate 16 0, bootid_iv := List.replicate 16 0,
    option_key := List.replicate 16 0, option_iv := List.replicate 16 0,
    games := fun _ => some { key := List.replicate 16 0, iv := none } }

/-- An APP BootID whose data offset (96) equals the input length, so
file-IV recovery reads 0 bytes. -/
def bootIdTrunc : BootId :=
  { container_type := ContainerType.APP, sequence_number := 0,
    use_custom_iv := false, game_id := [], os_id := [], target_option := [],
    block_count := 2, block_size := 96, header_block_count := 1 }

/-- A truncated APP container: its data offset is 96 but the file holds
only 96 bytes, so file-IV recovery reads 0 bytes there. -/
def fileTruncated : ContainerFile :=
  { bootid := .ok bootIdTrunc, bytes := List.replicate 96 0 }

/-- An OPTION BootID with a 17-byte payload. -/
def bootIdGoodOpt : BootId :=
  { container_type := ContainerType.OPTION, sequence_number := 0,
    use_custom_iv := false, game_id := [], os_id := [], target_option := [],
    block_count := 1, block_size := 17, header_block_count := 0 }

/-- An OPTION container decrypted with the configured option IV. -/
def fileGoodOpt : ContainerFile :=
  { bootid := .ok bootIdGoodOpt, bytes := List.replicate 96 0 }

/-- C10: `calculate_file_iv` has the unstated precondition that
`first_page` holds at least 16 bytes — with fewer the slice
`&first_page[..16]` panics; the case is reachable from `decrypt_container`
when IV recovery reads fewer than 16 bytes at the data offset of a
truncated container; and `decrypt_game_files` catches the panic, records it
as that file's per-file error, and still processes the remaining files. -/
theorem calculate_file_iv_short_page_panics :
    (∀ (aesDec : List Nat → List Nat → List Nat) (key hdr page : List Nat),
      page.length < 16 →
      calculate_file_iv aesDec key hdr page = .panicked slicePanicMsg)
    ∧ (decrypt_container envTriv keysRecover true fileTruncated).outcome
        = .panicked slicePanicMsg
    ∧ decrypt_game_files envTriv keysRecover true [fileTruncated, fileGoodOpt]
        = [{ output := none, container_type := some "APP", warnings := [],
             failed := true,
             error := some ("Decrypt panic: " ++ slicePanicMsg) },
           { output := some (List.replicate 17 0),
             container_type := some "OPTION", warnings := [],
             failed := false, error := none }] := by
  refine ⟨?_, by decide, by decide⟩
  intro aesDec key hdr page h
  rw [calculate_file_iv, if_pos h]

/-- Witness for C10's universal part at a concrete empty page. -/
theorem calculate_file_iv_short_page_panics_witness :
    calculate_file_iv (fun _ blk => blk) (List.replicate 16 0) NTFS_HEADER []
      = .panicked slicePanicMsg :=
  calculate_file_iv_short_page_panics.1 (fun _ blk => blk)
    (List.replicate 16 0) NTFS_HEADER [] (by decide)

/-!
### trusted.rs: trust status, two-tier cache, verify, deploy, rollback

The filesystem and the clock are explicit parameters: `fsMtime` maps a path
to the modification time (nanoseconds since the Unix epoch) of an existing
file, `now` is the current time in nanoseconds since the epoch.  Path join
(`root.join(rel)`) is string concatenation with a `/`.
-/

/-- `FileCheckResult` from trusted.rs (`exists` and `matches` are Lean
keywords, so those fields are `file_exists` and `sha_matches`). -/
structure FileCheckResult where
  path : String
  expected_sha256 : String
  actual_sha256 : Option String
  file_exists : Bool
  sha_matches : Bool
deriving DecidableEq

/-- `SegatoolsTrustStatus` from trusted.rs. -/
structure SegatoolsTrustStatus where
  trusted : Bool
  reason : Option String
  build_id : Option String
  generated_at : Option String
  artifact_name : Option String
  artifact_sha256 : Option String
  checked_files : List FileCheckResult
  has_backup : Bool
  missing_files : Bool
  local_build_time : Option String
deriving DecidableEq

/-- `CachedTrustEntry` (memory tier): `cached_at` is a `SystemTime`,
modelled as nanoseconds since the Unix epoch. -/
structure CachedTrustEntry where
  status : SegatoolsTrustStatus
  mtimes : List (String × Nat)
  cached_at : Nat
deriving DecidableEq

/-- `PersistentTrustEntry` (disk tier): `cached_at` is stored in whole
seconds since the Unix epoch. -/
structure PersistentTrustEntry where
  status : SegatoolsTrustStatus
  mtimes : List (String × Nat)
  cached_at : Nat
deriving DecidableEq

/-- The two cache tiers: the process-wide mutex-guarded map, and the
`<root>/.trust_cache.json` file per install root, both keyed by the root
path (`cache_key`). -/
structure TrustCacheState where
  mem : String → Option CachedTrustEntry
  disk : String → Option PersistentTrustEntry

/-- `TRUST_CACHE_TTL_SECS` from trusted.rs. -/
def TRUST_CACHE_TTL_SECS : Nat := 300

/-- Nanoseconds per second, for `Duration` comparisons. -/
def NANOS_PER_SEC : Nat := 1000000000

/-- `cache_key`: the lossy string form of the root path. -/
def cache_key (root : String) : String := root

/-- `root.join(rel)` for the path model. -/
def joinPath (root rel : String) : String := root ++ "/" ++ rel

/-- `files_unchanged` from trusted.rs: every recorded file must still exist
and have exactly the recorded mtime. -/
def files_unchanged (fsMtime : String → Option Nat) (root : String)
    (mtimes : List (String × Nat)) : Bool :=
  mtimes.all (fun rt => decide (fsMtime (joinPath root rt.1) = some rt.2))

/-- `capture_mtimes` from trusted.rs: record the mtimes of the checked
files that currently exist. -/
def capture_mtimes (fsMtime : String → Option Nat) (root : String)
    (files : List FileCheckResult) : List (String × Nat) :=
  files.filterMap (fun f => (fsMtime (joinPath root f.path)).map
    (fun t => (f.path, t)))

/-- `cached_status_for_memory` from trusted.rs: accept the memory entry
only when its age (`elapsed`, which errors into TTL+1 when the clock ran
backwards) does not exceed the TTL and the recorded mtimes all still
match. -/
def cached_status_for_memory (st : TrustCacheState)
    (fsMtime : String → Option Nat) (now : Nat) (root : String) :
    Option SegatoolsTrustStatus :=
  match st.mem (cache_key root) with
  | none => none
  | some entry =>
      let age := if entry.cached_at ≤ now then now - entry.cached_at
        else (TRUST_CACHE_TTL_SECS + 1) * NANOS_PER_SEC
      if age > TRUST_CACHE_TTL_SECS * NANOS_PER_SEC then none
      else if files_unchanged fsMtime root entry.mtimes then
        some entry.status
      else none

/-- `read_persistent_cache` from trusted.rs: read the disk-tier entry,
reject when its age exceeds the TTL (with the same clock-skew fallback) or
any recorded mtime changed. -/
def read_persistent_cache (st : TrustCacheState)
    (fsMtime : String → Option Nat) (now : Nat) (root : String) :
    Option PersistentTrustEntry :=
  match st.disk root with
  | none => none
  | some entry =>
      let age := if entry.cached_at * NANOS_PER_SEC ≤ now then
          now - entry.cached_at * NANOS_PER_SEC
        else (TRUST_CACHE_TTL_SECS + 1) * NANOS_PER_SEC
      if age > TRUST_CACHE_TTL_SECS * NANOS_PER_SEC then none
      else if files_unchanged fsMtime root entry.mtimes then some entry
      else none

/-- `cached_status_for` from trusted.rs: memory tier first, then the disk
tier (whose hit is promoted into the memory tier with a fresh
`cached_at`). -/
def cached_status_for (st : TrustCacheState) (fsMtime : String → Option Nat)
    (now : Nat) (root : String) :
    Option SegatoolsTrustStatus × TrustCacheState :=
  match cached_status_for_memory st fsMtime now root with
  | some s => (some s, st)
  | none =>
      match read_persistent_cache st fsMtime now root with
      | none => (none, st)
      | some entry =>
          let promoted : CachedTrustEntry :=
            { status := entry.status, mtimes := entry.mtimes,
              cached_at := now }
          (some entry.status,
           { st with mem := fun k =>
               if k = cache_key root then some promoted else st.mem k })

/-- `clear_cached_status` from trusted.rs: drop the memory entry and delete
the on-disk cache file for this root. -/
def clear_cached_status (st : TrustCacheState) (root : String) :
    TrustCacheState :=
  { mem := fun k => if k = cache_key root then none else st.mem k,
    disk := fun k => if k = root then none else st.disk k }

/-- `store_status_for` from trusted.rs: cache only successful trusted
verifications — anything untrusted or with missing files removes both
tiers instead; otherwise capture current mtimes and write both tiers
(the persistent `cached_at` truncates to whole seconds). -/
def store_status_for (st : TrustCacheState) (fsMtime : String → Option Nat)
    (now : Nat) (root : String) (status : SegatoolsTrustStatus) :
    TrustCacheState :=
  if !status.trusted || status.missing_files then
    clear_cached_status st root
  else
    let entry : CachedTrustEntry :=
      { status := status,
        mtimes := capture_mtimes fsMtime root status.checked_files,
        cached_at := now }
    let pentry : PersistentTrustEntry :=
      { status := entry.status, mtimes := entry.mtimes,
        cached_at := now / NANOS_PER_SEC }
    { mem := fun k => if k = cache_key root then some entry else st.mem k,
      disk := fun k => if k = root then some pentry else st.disk k }

/-!
### C5 and C6: trust-cache claims
-/

/-- C5: `store_status_for` inserts into the memory tier and persists to the
disk tier exactly when the status is trusted with no missing files; for any
other status it removes both the memory entry and the on-disk cache file
for that root instead. -/
theorem store_status_for_policy (st : TrustCacheState)
    (fsMtime : String → Option Nat) (now : Nat) (root : String)
    (status : SegatoolsTrustStatus) :
    ((status.trusted = true ∧ status.missing_files = false) →
      (store_status_for st fsMtime now root status).mem (cache_key root)
          = some { status := status,
                   mtimes := capture_mtimes fsMtime root status.checked_files,
                   cached_at := now }
        ∧ (store_status_for st fsMtime now root status).disk root
          = some { status := status,
                   mtimes := capture_mtimes fsMtime root status.checked_files,
                   cached_at := now / NANOS_PER_SEC })
    ∧ (¬(status.trusted = true ∧ status.missing_files = false) →
      (store_status_for st fsMtime now root status).mem (cache_key root) = none
        ∧ (store_status_for st fsMtime now root status).disk root = none) := by
  constructor
  · intro hok
    rw [store_status_for, if_neg (by simp [hok.1, hok.2])]
    exact ⟨by simp, by simp⟩
  · intro h
    have hcond : (!status.trusted || status.missing_files) = true := by
      cases htr : status.trusted <;> cases hmf : status.missing_files <;>
        simp_all
    rw [store_status_for, if_pos hcond]
    exact ⟨by simp [clear_cached_status], by simp [clear_cached_status]⟩

/-- A minimal trusted status with no checked files. -/
def statusTrusted : SegatoolsTrustStatus :=
  { trusted := true, reason := none, build_id := none, generated_at := none,
    artifact_name := none, artifact_sha256 := none, checked_files := [],
    has_backup := false, missing_files := false, local_build_time := none }

/-- The empty two-tier cache. -/
def emptyCache : TrustCacheState :=
  { mem := fun _ => none, disk := fun _ => none }

/-- Witness for C5 at a concrete trusted status. -/
theorem store_status_for_policy_witness :
    (store_status_for emptyCache (fun _ => none) 5 "root" statusTrusted).mem
        (cache_key "root")
        = some { status := statusTrusted,
                 mtimes := capture_mtimes (fun _ => none) "root"
                   statusTrusted.checked_files,
                 cached_at := 5 }
      ∧ (store_status_for emptyCache (fun _ => none) 5 "root"
          statusTrusted).disk "root"
        = some { status := statusTrusted,
                 mtimes := capture_mtimes (fun _ => none) "root"
                   statusTrusted.checked_files,
                 cached_at := 5 / NANOS_PER_SEC } :=
  (store_status_for_policy emptyCache (fun _ => none) 5 "root"
    statusTrusted).1 ⟨rfl, rfl⟩

theorem cached_status_for_memory_some (st : TrustCacheState)
    (fsMtime : String → Option Nat) (now : Nat) (root : String)
    (s : SegatoolsTrustStatus)
    (h : cached_status_for_memory st fsMtime now root = some s) :
    ∃ e, st.mem (cache_key root) = some e ∧ e.status = s ∧
      e.cached_at ≤ now ∧
      now - e.cached_at ≤ TRUST_CACHE_TTL_SECS * NANOS_PER_SEC ∧
      files_unchanged fsMtime root e.mtimes = true := by
  unfold cached_status_for_memory at h
  rcases hmem : st.mem (cache_key root) with _ | e
  · simp only [hmem] at h
    exact Option.noConfusion h
  · simp only [hmem] at h
    by_cases hle : e.cached_at ≤ now
    · rw [if_pos hle] at h
      by_cases hage : now - e.cached_at > TRUST_CACHE_TTL_SECS * NANOS_PER_SEC
      · rw [if_pos hage] at h
        exact Option.noConfusion h
      · rw [if_neg hage] at h
        by_cases hfiles : files_unchanged fsMtime root e.mtimes = true
        · rw [if_pos hfiles] at h
          rw [Option.some.injEq] at h
          exact ⟨e, rfl, h, hle, by omega, hfiles⟩
        · rw [if_neg hfiles] at h
          exact Option.noConfusion h
    · rw [if_neg hle, if_pos (by decide)] at h
      exact Option.noConfusion h

theorem read_persistent_cache_some (st : TrustCacheState)
    (fsMtime : String → Option Nat) (now : Nat) (root : String)
    (p : PersistentTrustEntry)
    (h : read_persistent_cache st fsMtime now root = some p) :
    st.disk root = some p ∧ p.cached_at * NANOS_PER_SEC ≤ now ∧
      now - p.cached_at * NANOS_PER_SEC
        ≤ TRUST_CACHE_TTL_SECS * NANOS_PER_SEC ∧
      files_unchanged fsMtime root p.mtimes = true := by
  unfold read_persistent_cache at h
  rcases hdisk : st.disk root with _ | entry
  · simp only [hdisk] at h
    exact Option.noConfusion h
  · simp only [hdisk] at h
    by_cases hle : entry.cached_at * NANOS_PER_SEC ≤ now
    · rw [if_pos hle] at h
      by_cases hage : now - entry.cached_at * NANOS_PER_SEC
          > TRUST_CACHE_TTL_SECS * NANOS_PER_SEC
      · rw [if_pos hage] at h
        exact Option.noConfusion h
      · rw [if_neg hage] at h
        by_cases hfiles : files_unchanged fsMtime root entry.mtimes = true
        · rw [if_pos hfiles] at h
          rw [Option.some.injEq] at h
          subst h
          exact ⟨rfl, hle, by omega, hfiles⟩
        · rw [if_neg hfiles] at h
          exact Option.noConfusion h
    · rw [if_neg hle, if_pos (by decide)] at h
      exact Option.noConfusion h

/-- C6: a cached trust status is returned only when the providing tier's
entry age does not exceed the 300-second TTL and every file recorded in its
mtimes map still exists under the root with exactly the recorded mtime
(nanoseconds since the Unix epoch); otherwise the lookup is a miss. -/
theorem cached_status_only_if_fresh_and_unchanged (st : TrustCacheState)
    (fsMtime : String → Option Nat) (now : Nat) (root : String)
    (s : SegatoolsTrustStatus)
    (h : (cached_status_for st fsMtime now root).1 = some s) :
    (∃ e, st.mem (cache_key root) = some e ∧ e.status = s ∧
      e.cached_at ≤ now ∧
      now - e.cached_at ≤ TRUST_CACHE_TTL_SECS * NANOS_PER_SEC ∧
      files_unchanged fsMtime root e.mtimes = true)
    ∨ (∃ p, st.disk root = some p ∧ p.status = s ∧
      p.cached_at * NANOS_PER_SEC ≤ now ∧
      now - p.cached_at * NANOS_PER_SEC
        ≤ TRUST_CACHE_TTL_SECS * NANOS_PER_SEC ∧
      files_unchanged fsMtime root p.mtimes = true) := by
  unfold cached_status_for at h
  rcases hm : cached_status_for_memory st fsMtime now root with _ | s'
  · simp only [hm] at h
    rcases hd : read_persistent_cache st fsMtime now root with _ | p
    · simp only [hd] at h
      exact Option.noConfusion h
    · simp only [hd] at h
      rw [Option.some.injEq] at h
      obtain ⟨hdisk, hle, hage, hfiles⟩ :=
        read_persistent_cache_some st fsMtime now root p hd
      exact Or.inr ⟨p, hdisk, h, hle, hage, hfiles⟩
  · simp only [hm] at h
    rw [Option.some.injEq] at h
    subst h
    exact Or.inl (cached_status_for_memory_some st fsMtime now root s' hm)

/-- A cache whose memory tier has one entry for root "r", cached at 5 ns. -/
def cacheWithFresh : TrustCacheState :=
  { mem := fun k => if k = "r" then
      some { status := statusTrusted, mtimes := [], cached_at := 5 }
    else none,
    disk := fun _ => none }

/-- Witness for C6: a fresh, unchanged memory entry is indeed the source of
the returned status. -/
theorem cached_status_only_if_fresh_and_unchanged_witness :
    (∃ e, cacheWithFresh.mem (cache_key "r") = some e ∧
      e.status = statusTrusted ∧ e.cached_at ≤ 6 ∧
      6 - e.cached_at ≤ TRUST_CACHE_TTL_SECS * NANOS_PER_SEC ∧
      files_unchanged (fun _ => none) "r" e.mtimes = true)
    ∨ (∃ p, cacheWithFresh.disk "r" = some p ∧ p.status = statusTrusted ∧
      p.cached_at * NANOS_PER_SEC ≤ 6 ∧
      6 - p.cached_at * NANOS_PER_SEC
        ≤ TRUST_CACHE_TTL_SECS * NANOS_PER_SEC ∧
      files_unchanged (fun _ => none) "r" p.mtimes = true) :=
  cached_status_only_if_fresh_and_unchanged cacheWithFresh (fun _ => none)
    6 "r" statusTrusted (by decide)

/-!
### trusted.rs: manifest data and `check_files`
-/

/-- `TrustedFile` from trusted.rs. -/
structure TrustedFile where
  path : String
  size : Nat
  sha256 : String
deriving DecidableEq

/-- `TrustedArtifact` from trusted.rs (the `minisig` signature pointer is
consumed only by the manifest fetcher, which is network code outside the
claims). -/
structure TrustedArtifact where
  kind : String
  name : String
  r2_key : String
  size : Nat
  sha256 : String
  files : List TrustedFile
deriving DecidableEq

/-- `TrustedManifest` from trusted.rs (the `upstream` block is metadata the
core never reads). -/
structure TrustedManifest where
  schema_version : Nat
  generated_at : String
  build_id : String
  artifacts : List TrustedArtifact
deriving DecidableEq

/-- Filesystem view used by `check_files`: existence, the SHA-256 that
`sha256_reader` computes when the file opens (none models an open/read
error), the PE header timestamp that `get_pe_timestamp` extracts, and
chrono's `format_timestamp` rendering. -/
structure VerifyFs where
  pathExists : String → Bool
  hashOf : String → Option String
  peTs : String → Option Nat
  formatTs : Nat → String

/-- `BACKUP_DIR` from trusted.rs. -/
def BACKUP_DIR : String := "Segatools_Backup"

/-- `BACKUP_META_NAME` from trusted.rs. -/
def BACKUP_META_NAME : String := "metadata.json"

/-- One iteration of the `check_files` loop: hash the on-disk counterpart
of an expected file and compare. -/
def checkOne (fs : VerifyFs) (root : String) (file : TrustedFile) :
    FileCheckResult :=
  let target := joinPath root file.path
  if fs.pathExists target then
    let sha := fs.hashOf target
    { path := file.path, expected_sha256 := file.sha256,
      actual_sha256 := sha, file_exists := true,
      sha_matches := decide (sha = some file.sha256) }
  else
    { path := file.path, expected_sha256 := file.sha256,
      actual_sha256 := none, file_exists := false, sha_matches := false }

/-- The `max_mismatch_ts` accumulation of `check_files`: for every existing
but mismatched `.dll`/`.exe`, keep the largest PE timestamp. -/
def mismatchTs (fs : VerifyFs) (root : String) (files : List TrustedFile) :
    Option Nat :=
  files.foldl (fun acc file =>
    let target := joinPath root file.path
    if fs.pathExists target
        ∧ ¬(fs.hashOf target = some file.sha256)
        ∧ (file.path.toLower.endsWith ".dll"
            || file.path.toLower.endsWith ".exe") = true then
      match fs.peTs target with
      | some ts =>
          match acc with
          | none => some ts
          | some cur => if ts > cur then some ts else acc
      | none => acc
    else acc) none

/-- `check_files` from trusted.rs (lines 595-674): per-file existence and
SHA-256 comparison, `trusted` iff the list is non-empty and every entry
matches, `missing_files` iff some entry does not exist, plus the derived
reason and the newest mismatched-binary build time. -/
def check_files (fs : VerifyFs) (root : String) (files : List TrustedFile)
    (artifact : TrustedArtifact) (manifest : TrustedManifest) :
    SegatoolsTrustStatus :=
  let has_backup := fs.pathExists (joinPath (joinPath root BACKUP_DIR)
    BACKUP_META_NAME)
  let results := files.map (checkOne fs root)
  let local_build_time := (mismatchTs fs root files).map fs.formatTs
  let missing_files := results.any (fun r => !r.file_exists)
  let all_match := !results.isEmpty && results.all (fun r => r.sha_matches)
  let reason :=
    if results.isEmpty then
      some "No trusted DLL hashes available to verify this artifact"
    else if all_match then none
    else if missing_files then some "Missing segatools binaries; please deploy."
    else some "Detected untrusted segatools binaries"
  { trusted := all_match, reason := reason,
    build_id := some manifest.build_id,
    generated_at := some manifest.generated_at,
    artifact_name := some artifact.name,
    artifact_sha256 := some artifact.sha256,
    checked_files := results, has_backup := has_backup,
    missing_files := missing_files, local_build_time := local_build_time }

/-- C7: the status produced by `check_files` has `trusted = true` iff the
checked-file list is non-empty and every entry's on-disk SHA-256 matches
its expected SHA-256, and `missing_files = true` iff some checked entry
does not exist on disk. -/
theorem check_files_trusted_missing_iff (fs : VerifyFs) (root : String)
    (files : List TrustedFile) (artifact : TrustedArtifact)
    (manifest : TrustedManifest) :
    ((check_files fs root files artifact manifest).trusted = true ↔
      (check_files fs root files artifact manifest).checked_files ≠ []
        ∧ ∀ r ∈ (check_files fs root files artifact manifest).checked_files,
            r.sha_matches = true)
    ∧ ((check_files fs root files artifact manifest).missing_files = true ↔
      ∃ r ∈ (check_files fs root files artifact manifest).checked_files,
        r.file_exists = false) := by
  constructor
  · simp only [check_files, Bool.and_eq_true, Bool.not_eq_true',
      List.all_eq_true, List.isEmpty_eq_false]
  · simp only [check_files, List.any_eq_true, Bool.not_eq_true']

/-!
### trusted.rs: deploy, backup and rollback (C8, C9)
-/

/-- `BackupMetadata` from trusted.rs. -/
structure BackupMetadata where
  created_at : String
  artifact_name : String
  artifact_sha256 : String
  build_id : Option String
  backed_up_files : List String
  new_files : List String
deriving DecidableEq

/-- The install root's file tree, the backup mirror under
`Segatools_Backup/files/`, and the backup `metadata.json`, each keyed by
the zip-relative entry path.  Deploy and rollback touch exactly these. -/
structure RootFs where
  files : String → Option (List Nat)
  backupFiles : String → Option (List Nat)
  backupMeta : Option BackupMetadata

/-- Inputs of a deploy: the entries of the downloaded artifact zip
(`collect_zip_entries`, already cleaned by `clean_entry_path`), each
entry's decompressed content, the selected artifact and manifest, and the
`Utc::now().to_rfc3339()` timestamp. -/
structure DeployEnv where
  entries : List String
  zipContent : String → List Nat
  artifact : TrustedArtifact
  manifest : TrustedManifest
  now_rfc3339 : String

/-- `backup_existing` from trusted.rs (lines 718-760): remove any previous
backup, copy every zip entry that already exists under the root into the
backup mirror, and write metadata listing the copied entries
(`backed_up_files`) and the absent ones (`new_files`) in zip order. -/
def backup_existing (env : DeployEnv) (fs : RootFs) :
    RootFs × BackupMetadata :=
  let part := env.entries.partition (fun e => (fs.files e).isSome)
  let metadata : BackupMetadata :=
    { created_at := env.now_rfc3339, artifact_name := env.artifact.name,
      artifact_sha256 := env.artifact.sha256,
      build_id := some env.manifest.build_id,
      backed_up_files := part.1, new_files := part.2 }
  ({ files := fs.files,
     backupFiles := fun p =>
       if p ∈ env.entries ∧ (fs.files p).isSome then fs.files p else none,
     backupMeta := some metadata }, metadata)

/-- `extract_artifact` from trusted.rs: write every zip entry's content
over the install root, creating parent directories as needed. -/
def extract_artifact (env : DeployEnv) (fs : RootFs) : RootFs :=
  { fs with files := fun p =>
      if p ∈ env.entries then some (env.zipContent p) else fs.files p }

/-- `DeployResult` from trusted.rs (its trailing `verification` field is
the `check_files` status, orthogonal to the deploy/rollback claims). -/
structure DeployResult where
  deployed : Bool
  needs_confirmation : Bool
  existing_files : List String
  backup_dir : Option String
  message : Option String
deriving DecidableEq

/-- `deploy_segatoools_for_active` from trusted.rs (lines 777-822): compute
which zip entries already exist under the root; without `force` their
presence aborts with `needs_confirmation` and no disk mutation; otherwise
back up the existing set (when non-empty) and extract the zip over the
root. -/
def deploy_segatoools_for_active (env : DeployEnv) (force : Bool)
    (fs : RootFs) : DeployResult × RootFs :=
  let existing := env.entries.filter (fun e => (fs.files e).isSome)
  if existing ≠ [] ∧ force = false then
    ({ deployed := false, needs_confirmation := true,
       existing_files := existing, backup_dir := none,
       message := some "Existing segatools files detected. Backup and confirmation required." },
     fs)
  else
    let fs1 := if existing ≠ [] then (backup_existing env fs).1 else fs
    let fs2 := extract_artifact env fs1
    ({ deployed := true, needs_confirmation := false,
       existing_files := existing,
       backup_dir := if existing ≠ [] then some BACKUP_DIR else none,
       message := some "segatools deployed successfully" }, fs2)

/-- `rollback_segatoools_for_active` from trusted.rs (lines 824-857):
require backup metadata; copy every backed-up file back (failing when its
backup copy is missing), then delete every `new_files` entry that is
present.  Clearing the trust cache and the final re-verify act on the
cache state and the network, not on this file tree. -/
def rollback_segatoools_for_active (fs : RootFs) : Except String RootFs :=
  match fs.backupMeta with
  | none => .error "No segatools backup available to roll back"
  | some meta =>
      if meta.backed_up_files.all (fun p => (fs.backupFiles p).isSome) then
        .ok { fs with files := fun p =>
            if p ∈ meta.new_files then none
            else if p ∈ meta.backed_up_files then fs.backupFiles p
            else fs.files p }
      else .error "I/O error: backup copy missing"

/-- C9: with at least one zip entry already present under the root and
`force = false`, deploy returns `deployed = false`,
`needs_confirmation = true` with `existing_files` listing exactly the
present entries, and the filesystem is returned unchanged — nothing under
the root is created, modified or deleted. -/
theorem deploy_no_force_returns_confirmation (env : DeployEnv) (fs : RootFs)
    (hex : env.entries.filter (fun e => (fs.files e).isSome) ≠ []) :
    deploy_segatoools_for_active env false fs
      = ({ deployed := false, needs_confirmation := true,
           existing_files :=
             env.entries.filter (fun e => (fs.files e).isSome),
           backup_dir := none,
           message := some "Existing segatools files detected. Backup and confirmation required." },
         fs) := by
  simp only [deploy_segatoools_for_active]
  rw [if_pos ⟨hex, trivial⟩]

/-- A manifest artifact fixture. -/
def artifactW : TrustedArtifact :=
  { kind := "component", name := "mai2.zip", r2_key := "k", size := 0,
    sha256 := "s", files := [] }

/-- A manifest fixture. -/
def manifestW : TrustedManifest :=
  { schema_version := 1, generated_at := "g", build_id := "b",
    artifacts := [] }

/-- A deploy fixture: one zip entry "a" with content `[1]`. -/
def envDeployW : DeployEnv :=
  { entries := ["a"], zipContent := fun _ => [1], artifact := artifactW,
    manifest := manifestW, now_rfc3339 := "t" }

/-- A root that already contains entry "a" with content `[0]`. -/
def fsWithA : RootFs :=
  { files := fun p => if p = "a" then some [0] else none,
    backupFiles := fun _ => none, backupMeta := none }

/-- Witness for C9 at the concrete fixture. -/
theorem deploy_no_force_returns_confirmation_witness :
    deploy_segatoools_for_active envDeployW false fsWithA
      = ({ deployed := false, needs_confirmation := true,
           existing_files :=
             envDeployW.entries.filter (fun e => (fsWithA.files e).isSome),
           backup_dir := none,
           message := some "Existing segatools files detected. Backup and confirmation required." },
         fsWithA) :=
  deploy_no_force_returns_confirmation envDeployW fsWithA (by decide)

/-- An empty install root. -/
def fsEmpty : RootFs :=
  { files := fun _ => none, backupFiles := fun _ => none,
    backupMeta := none }

/-- C8 counterexample: a forced deploy over a root containing none of the
zip entries takes no backup and writes no metadata at all, so the claimed
backup metadata does not exist; a subsequent rollback fails and the newly
written entry "a" is not deleted. -/
theorem deploy_force_without_overlap_writes_no_metadata :
    ((deploy_segatoools_for_active envDeployW true fsEmpty).2).backupMeta
        = none
    ∧ rollback_segatoools_for_active
        (deploy_segatoools_for_active envDeployW true fsEmpty).2
        = .error "No segatools backup available to roll back"
    ∧ ((deploy_segatoools_for_active envDeployW true fsEmpty).2).files "a"
        = some [1] :=
  ⟨rfl, rfl, rfl⟩

/-- C8 (amended): provided at least one zip entry already exists under the
root — so the backup step actually runs — a forced deploy writes backup
metadata whose `backed_up_files` are exactly the pre-existing zip entries
(E ∩ Z) and whose `new_files` are exactly the others (Z \ E), and a
subsequent rollback succeeds, restores every pre-existing entry
byte-identically from the backup and deletes every `new_files` entry. -/
theorem deploy_force_backup_and_rollback (env : DeployEnv) (fs : RootFs)
    (hex : env.entries.filter (fun e => (fs.files e).isSome) ≠ []) :
    ∃ meta,
      ((deploy_segatoools_for_active env true fs).2).backupMeta = some meta
      ∧ (∀ e, e ∈ meta.backed_up_files ↔
          e ∈ env.entries ∧ (fs.files e).isSome = true)
      ∧ (∀ e, e ∈ meta.new_files ↔
          e ∈ env.entries ∧ (fs.files e).isSome = false)
      ∧ ∃ fs2,
          rollback_segatoools_for_active
              (deploy_segatoools_for_active env true fs).2 = .ok fs2
          ∧ ∀ e ∈ env.entries, fs2.files e = fs.files e := by
  have hstep : (deploy_segatoools_for_active env true fs).2
      = extract_artifact env (backup_existing env fs).1 := by
    simp only [deploy_segatoools_for_active]
    rw [if_neg (by simp)]
    simp only [if_pos hex]
  have hbacked : (backup_existing env fs).2.backed_up_files
      = env.entries.filter (fun e => (fs.files e).isSome) := by
    simp only [backup_existing, List.partition_eq_filter_filter]
  have hnew : (backup_existing env fs).2.new_files
      = env.entries.filter (fun e => !(fs.files e).isSome) := by
    simp only [backup_existing, List.partition_eq_filter_filter]
    rfl
  have hD : extract_artifact env (backup_existing env fs).1
      = { files := fun p => if p ∈ env.entries then some (env.zipContent p)
            else fs.files p,
          backupFiles := fun p =>
            if p ∈ env.entries ∧ (fs.files p).isSome then fs.files p
            else none,
          backupMeta := some (backup_existing env fs).2 } := by
    simp only [backup_existing, extract_artifact]
  refine ⟨(backup_existing env fs).2, ?_, ?_, ?_, ?_⟩
  · rw [hstep, hD]
  · intro e
    rw [hbacked, List.mem_filter]
  · intro e
    rw [hnew, List.mem_filter, Bool.not_eq_true']
  · rw [hstep, hD]
    have hall : ((backup_existing env fs).2.backed_up_files).all
        (fun p => (if p ∈ env.entries ∧ (fs.files p).isSome then fs.files p
          else none).isSome) = true := by
      rw [List.all_eq_true]
      intro p hp
      rw [hbacked, List.mem_filter] at hp
      rw [if_pos ⟨hp.1, hp.2⟩]
      exact hp.2
    simp only [rollback_segatoools_for_active]
    rw [if_pos hall]
    refine ⟨_, rfl, ?_⟩
    intro e he
    show (if e ∈ (backup_existing env fs).2.new_files then none
        else if e ∈ (backup_existing env fs).2.backed_up_files then
          (if e ∈ env.entries ∧ (fs.files e).isSome then fs.files e else none)
        else if e ∈ env.entries then some (env.zipContent e) else fs.files e)
      = fs.files e
    rcases hfe : fs.files e with _ | v
    · have hmem : e ∈ (backup_existing env fs).2.new_files := by
        rw [hnew, List.mem_filter]
        refine ⟨he, ?_⟩
        rw [hfe]
        rfl
      rw [if_pos hmem]
    · have hnotnew : e ∉ (backup_existing env fs).2.new_files := by
        rw [hnew, List.mem_filter]
        intro hcon
        rw [hfe] at hcon
        exact absurd hcon.2 (by simp)
      have hmem : e ∈ (backup_existing env fs).2.backed_up_files := by
        rw [hbacked, List.mem_filter]
        refine ⟨he, ?_⟩
        rw [hfe]
        rfl
      rw [if_neg hnotnew, if_pos hmem, if_pos (⟨he, rfl⟩ :
        e ∈ env.entries ∧ (some v).isSome = true)]

/-- A filesystem where every path exists and hashes to "h". -/
def verifyFsAll : VerifyFs :=
  { pathExists := fun _ => true, hashOf := fun _ => some "h",
    peTs := fun _ => none, formatTs := fun _ => "" }

/-- Witness for C7: one matching file makes the status trusted. -/
theorem check_files_trusted_missing_iff_witness :
    (check_files verifyFsAll "r"
        [{ path := "a.dll", size := 1, sha256 := "h" }]
        artifactW manifestW).trusted = true :=
  (check_files_trusted_missing_iff verifyFsAll "r"
      [{ path := "a.dll", size := 1, sha256 := "h" }]
      artifactW manifestW).1.mpr ⟨by decide, by decide⟩

/-- Witness for the amended C8 at the concrete fixture: the root already
holds entry "a", which is backed up and restored. -/
theorem deploy_force_backup_and_rollback_witness :
    ∃ meta,
      ((deploy_segatoools_for_active envDeployW true fsWithA).2).backupMeta
          = some meta
      ∧ (∀ e, e ∈ meta.backed_up_files ↔
          e ∈ envDeployW.entries ∧ (fsWithA.files e).isSome = true)
      ∧ (∀ e, e ∈ meta.new_files ↔
          e ∈ envDeployW.entries ∧ (fsWithA.files e).isSome = false)
      ∧ ∃ fs2,
          rollback_segatoools_for_active
              (deploy_segatoools_for_active envDeployW true fsWithA).2
            = .ok fs2
          ∧ ∀ e ∈ envDeployW.entries, fs2.files e = fsWithA.files e :=
  deploy_force_backup_and_rollback envDeployW fsWithA (by decide)

end IRIS
